import Mathlib

/-!
Verification of the charon credential-and-grant lifecycle
(`src/charon/models-djangostyle.py`).

Python dictionaries are embedded as association lists whose operations
mirror CPython semantics exactly: lookup and membership scan from the
front, assignment updates the first matching entry in place (appending a
new entry otherwise, which preserves insertion order), and `pop` removes
the first matching entry.  Real Python dicts never hold duplicate keys,
so theorems that depend on key uniqueness take an explicit `dictNodup`
hypothesis that every state reachable by the code satisfies.

Timestamps are embedded as integers (seconds); `None`-able columns and
optional payload fields are `Option`s; raised exceptions are `Except`
errors.  Each definition is a direct transcription of the corresponding
Python method, including its evaluation order and truthiness tests.
-/

set_option autoImplicit false

namespace Charon

universe u v

/-- Python `d.get(k)` / `d[k]` lookup: first entry with the given key. -/
def dictGet {κ : Type u} {α : Type v} [DecidableEq κ] (d : List (κ × α)) (k : κ) : Option α :=
  match d with
  | [] => none
  | p :: rest => if p.1 = k then some p.2 else dictGet rest k

/-- Python `k in d`. -/
def dictContains {κ : Type u} {α : Type v} [DecidableEq κ] (d : List (κ × α)) (k : κ) : Bool :=
  match d with
  | [] => false
  | p :: rest => if p.1 = k then true else dictContains rest k

/-- Python `d[k] = v`: update the entry in place if the key is present,
otherwise append it (insertion order). -/
def dictSet {κ : Type u} {α : Type v} [DecidableEq κ] (d : List (κ × α)) (k : κ) (v : α) :
    List (κ × α) :=
  match d with
  | [] => [(k, v)]
  | p :: rest => if p.1 = k then (k, v) :: rest else p :: dictSet rest k v

/-- Python `d.pop(k, None)`: drop the entry with the given key, if any. -/
def dictPop {κ : Type u} {α : Type v} [DecidableEq κ] (d : List (κ × α)) (k : κ) :
    List (κ × α) :=
  match d with
  | [] => []
  | p :: rest => if p.1 = k then rest else p :: dictPop rest k

/-- Key uniqueness, an invariant of every real Python dict. -/
def dictNodup {κ : Type u} {α : Type v} (d : List (κ × α)) : Prop :=
  (d.map Prod.fst).Nodup

instance {κ : Type u} {α : Type v} [DecidableEq κ] (d : List (κ × α)) :
    Decidable (dictNodup d) := by
  unfold dictNodup
  infer_instance

theorem dictGet_dictSet_self {κ : Type u} {α : Type v} [DecidableEq κ]
    (d : List (κ × α)) (k : κ) (v : α) : dictGet (dictSet d k v) k = some v := by
  induction d with
  | nil => simp [dictSet, dictGet]
  | cons p rest ih =>
    by_cases h : p.1 = k
    · simp [dictSet, dictGet, h]
    · simp [dictSet, dictGet, h, ih]

theorem dictGet_dictSet_ne {κ : Type u} {α : Type v} [DecidableEq κ]
    (d : List (κ × α)) (k k' : κ) (v : α) (hk : k' ≠ k) :
    dictGet (dictSet d k v) k' = dictGet d k' := by
  induction d with
  | nil => simp [dictSet, dictGet, Ne.symm hk]
  | cons p rest ih =>
    by_cases h : p.1 = k
    · simp [dictSet, dictGet, h, Ne.symm hk]
    · by_cases h2 : p.1 = k'
      · simp only [dictSet, if_neg h]
        simp [dictGet, h2]
      · simp only [dictSet, if_neg h]
        simp [dictGet, h2, ih]

theorem dictContains_eq_false_iff {κ : Type u} {α : Type v} [DecidableEq κ]
    (d : List (κ × α)) (k : κ) : dictContains d k = false ↔ dictGet d k = none := by
  induction d with
  | nil => simp [dictContains, dictGet]
  | cons p rest ih =>
    by_cases h : p.1 = k
    · simp [dictContains, dictGet, h]
    · simp [dictContains, dictGet, h, ih]

theorem dictContains_eq_true_iff {κ : Type u} {α : Type v} [DecidableEq κ]
    (d : List (κ × α)) (k : κ) : dictContains d k = true ↔ ∃ v, dictGet d k = some v := by
  induction d with
  | nil => simp [dictContains, dictGet]
  | cons p rest ih =>
    by_cases h : p.1 = k
    · simp [dictContains, dictGet, h]
    · simp [dictContains, dictGet, h, ih]

theorem dictGet_mem {κ : Type u} {α : Type v} [DecidableEq κ]
    (d : List (κ × α)) (k : κ) (v : α) (h : dictGet d k = some v) : (k, v) ∈ d := by
  induction d with
  | nil => simp [dictGet] at h
  | cons p rest ih =>
    obtain ⟨a, b⟩ := p
    by_cases hp : a = k
    · simp only [dictGet, if_pos hp] at h
      obtain rfl := hp
      obtain rfl : b = v := Option.some.inj h
      exact List.mem_cons_self _ _
    · simp only [dictGet, if_neg hp] at h
      exact List.mem_cons_of_mem _ (ih h)

theorem dictGet_eq_none_of_not_mem_keys {κ : Type u} {α : Type v} [DecidableEq κ]
    (d : List (κ × α)) (k : κ) (h : k ∉ d.map Prod.fst) : dictGet d k = none := by
  induction d with
  | nil => simp [dictGet]
  | cons p rest ih =>
    simp only [List.map_cons, List.mem_cons] at h
    push_neg at h
    have hne : ¬ p.1 = k := fun he => h.1 he.symm
    simp [dictGet, hne, ih h.2]

theorem dictGet_dictPop_self {κ : Type u} {α : Type v} [DecidableEq κ]
    (d : List (κ × α)) (k : κ) (hd : dictNodup d) : dictGet (dictPop d k) k = none := by
  induction d with
  | nil => simp [dictPop, dictGet]
  | cons p rest ih =>
    unfold dictNodup at hd
    simp only [List.map_cons, List.nodup_cons] at hd
    by_cases h : p.1 = k
    · subst h
      simp only [dictPop, if_pos rfl]
      exact dictGet_eq_none_of_not_mem_keys rest p.1 hd.1
    · simp [dictPop, dictGet, h, ih hd.2]

theorem dictGet_map_value {κ : Type u} {α : Type v} [DecidableEq κ]
    (d : List (κ × α)) (f : α → α) (k : κ) :
    dictGet (d.map (fun p => (p.1, f p.2))) k = (dictGet d k).map f := by
  induction d with
  | nil => simp [dictGet]
  | cons p rest ih =>
    by_cases h : p.1 = k
    · simp [dictGet, h]
    · simp [dictGet, h, ih]

theorem keys_map_value {κ : Type u} {α : Type v}
    (d : List (κ × α)) (f : α → α) :
    (d.map (fun p => (p.1, f p.2))).map Prod.fst = d.map Prod.fst := by
  induction d with
  | nil => rfl
  | cons p rest ih => simp [ih]

/-- Looking up a key after folding Python-style assignments of a
duplicate-free update map: the update's value wins, otherwise the
original binding survives. -/
theorem dictGet_foldl_dictSet {κ : Type u} {α : Type v} [DecidableEq κ]
    (m d0 : List (κ × α)) (hm : dictNodup m) (k : κ) :
    dictGet (m.foldl (fun d kv => dictSet d kv.1 kv.2) d0) k =
      match dictGet m k with
      | some v => some v
      | none => dictGet d0 k := by
  induction m generalizing d0 with
  | nil => simp [dictGet]
  | cons p rest ih =>
    unfold dictNodup at hm
    simp only [List.map_cons, List.nodup_cons] at hm
    by_cases h : p.1 = k
    · subst h
      have hrest : dictGet rest p.1 = none :=
        dictGet_eq_none_of_not_mem_keys rest p.1 hm.1
      simp [List.foldl_cons, ih (dictSet d0 p.1 p.2) hm.2, dictGet, hrest,
        dictGet_dictSet_self]
    · simp [List.foldl_cons, ih (dictSet d0 p.1 p.2) hm.2, dictGet, h]
      cases hrk : dictGet rest k with
      | some v => simp
      | none => simp [dictGet_dictSet_ne d0 p.1 k p.2 (fun he => h he.symm)]

/-- Grant metadata: an opaque string-keyed mapping (`oauth_grants` leaf). -/
abbrev Meta := List (String × String)

/-- `oauth_grants`: `node_id → (external_account_id → metadata)`. -/
abbrev Grants := List (String × List (String × Meta))

/-- The `ExternalAccount` Django model, restricted to the columns the
charon core reads and writes.  Nullable columns are `Option`s. -/
structure ExternalAccount where
  provider : String
  provider_id : String
  provider_name : Option String
  oauth_key : Option String
  oauth_secret : Option String
  refresh_token : Option String
  expires_at : Option Int
  date_last_refreshed : Option Int
  display_name : Option String
  profile_url : Option String
deriving DecidableEq, Repr

/-- `BaseOAuthUserSettings`: one owner's grant ledger, together with the
account ids the owner is linked to.  `owner_accounts` embeds
`self.owner.external_accounts` (all providers, as checked by
`grant_oauth_access`); `provider_accounts` embeds the provider-filtered
`external_accounts` property used by `has_auth`. -/
structure BaseOAuthUserSettings where
  owner : String
  owner_accounts : List String
  provider_accounts : List String
  oauth_grants : Grants
deriving DecidableEq, Repr

/-- The stored metadata entry for a `(node, account)` pair, i.e.
`self.oauth_grants[node._id][external_account._id]` as a total lookup. -/
def storedMeta (s : BaseOAuthUserSettings) (node acct : String) : Option Meta :=
  (dictGet s.oauth_grants node).bind (fun inner => dictGet inner acct)

/-- `BaseOAuthUserSettings.has_auth`: `self.external_accounts.exists()`. -/
def BaseOAuthUserSettings.has_auth (s : BaseOAuthUserSettings) : Bool :=
  !s.provider_accounts.isEmpty

/-- `if node._id not in self.oauth_grants: self.oauth_grants[node._id] = {}` -/
def ensureNode (g : Grants) (node : String) : Grants :=
  if dictContains g node then g else dictSet g node []

/-- `if external_account._id not in self.oauth_grants[node._id]:
self.oauth_grants[node._id][external_account._id] = {}` -/
def ensureAcct (g : Grants) (node acct : String) : Grants :=
  let inner := (dictGet g node).getD []
  if dictContains inner acct then g else dictSet g node (dictSet inner acct [])

/-- The state mutation block of `grant_oauth_access` once the ownership
check has passed. -/
def grantResult (s : BaseOAuthUserSettings) (node acct : String) (metadata : Meta) :
    BaseOAuthUserSettings :=
  let g2 := ensureAcct (ensureNode s.oauth_grants node) node acct
  let inner2 := (dictGet g2 node).getD []
  let meta0 := (dictGet inner2 acct).getD []
  let metaNew := metadata.foldl (fun m kv => dictSet m kv.1 kv.2) meta0
  { s with oauth_grants := dictSet g2 node (dictSet inner2 acct metaNew) }

/-- `BaseOAuthUserSettings.grant_oauth_access`: raises `PermissionsError`
unless the owner owns the account, then ensures the nested entries exist
and merges the supplied metadata key by key into the existing entry. -/
def grant_oauth_access (s : BaseOAuthUserSettings) (node acct : String) (metadata : Meta) :
    Except Unit BaseOAuthUserSettings :=
  if (s.owner_accounts.contains acct) = false then Except.error () else
  Except.ok (grantResult s node acct metadata)

/-- `BaseOAuthUserSettings.verify_oauth_access`: the two-level lookup
(`KeyError → False`), then every required key/value pair must be present
and equal. -/
def verify_oauth_access (s : BaseOAuthUserSettings) (node acct : String) (metadata : Meta) :
    Bool :=
  match dictGet s.oauth_grants node with
  | none => false
  | some inner =>
    match dictGet inner acct with
    | none => false
    | some grants =>
      metadata.all (fun kv =>
        match dictGet grants kv.1 with
        | none => false
        | some v => decide (v = kv.2))

/-- External node state consulted by `revoke_oauth_access`:
`AbstractNode.load(node_id).is_deleted`, plus the account's
`osfuser_set` count and whether `auth.user` is among those users. -/
structure RevokeEnv where
  is_deleted : String → Bool
  acct_user_count : Nat
  auth_user_linked : Bool

/-- `BaseOAuthUserSettings.get_nodes_with_oauth_grants`: node ids whose
grants mention the account and whose node is not deleted. -/
def get_nodes_with_oauth_grants (s : BaseOAuthUserSettings) (is_deleted : String → Bool)
    (acct : String) : List String :=
  s.oauth_grants.filterMap (fun p =>
    if dictContains p.2 acct && !(is_deleted p.1) then some p.1 else none)

/-- `BaseOAuthUserSettings.revoke_oauth_access`: deauthorizes the addon
of every node yielded by `get_nodes_with_oauth_grants` (first
component), triggers the remote revoke when this user is the account's
only user (second component), and pops the account's entry from every
node's grants. -/
def revoke_oauth_access (s : BaseOAuthUserSettings) (env : RevokeEnv) (acct : String) :
    List String × Bool × BaseOAuthUserSettings :=
  let deauthorized := get_nodes_with_oauth_grants s env.is_deleted acct
  let remote := env.acct_user_count == 1 && env.auth_user_linked
  let g := s.oauth_grants.map (fun p => (p.1, dictPop p.2 acct))
  (deauthorized, remote, { s with oauth_grants := g })

/-- Python tuple unpacking `k, v = s` of a string: succeeds exactly when
the string has two characters, yielding its two one-character pieces. -/
def strUnpack2 (s : String) : Option (String × String) :=
  match s.data with
  | [c1, c2] => some (String.mk [c1], String.mk [c2])
  | _ => none

/-- The `for k, v in meta:` loop of `BaseOAuthUserSettings.merge`, which
iterates the metadata dict itself (not `.items()`): each KEY is
unpacked into `(k, v)` — a `ValueError` unless the key happens to be a
two-character string — and `dest[k] = v` is set for keys absent from
`dest`. -/
def mergeMetaLoop (dest : Meta) (srcMeta : Meta) : Except Unit Meta :=
  srcMeta.foldlM (fun d kv =>
    match strUnpack2 kv.1 with
    | none => Except.error ()
    | some (k, v) =>
      Except.ok (if dictContains d k then d else dictSet d k v)) dest

/-- `BaseOAuthUserSettings.merge`, on the two ledgers' grant mappings:
source entries for nodes absent from dest are copied wholesale, entries
for accounts absent from the dest node's entry are copied, and for
entries present in both the buggy `mergeMetaLoop` runs.  On success the
source mapping is cleared (`user_settings.oauth_grants = {}`). -/
def merge (dest src : Grants) : Except Unit (Grants × Grants) :=
  match src.foldlM (fun (d : Grants) (nodeEntry : String × List (String × Meta)) =>
    if dictContains d nodeEntry.1 = false then
      Except.ok (dictSet d nodeEntry.1 nodeEntry.2)
    else
      nodeEntry.2.foldlM (fun (d2 : Grants) (acctEntry : String × Meta) =>
        let inner := (dictGet d2 nodeEntry.1).getD []
        if dictContains inner acctEntry.1 = false then
          Except.ok (dictSet d2 nodeEntry.1 (dictSet inner acctEntry.1 acctEntry.2))
        else
          match mergeMetaLoop ((dictGet inner acctEntry.1).getD []) acctEntry.2 with
          | Except.error e => Except.error e
          | Except.ok m =>
            Except.ok (dictSet d2 nodeEntry.1 (dictSet inner acctEntry.1 m))) d) dest with
  | Except.error e => Except.error e
  | Except.ok newDest => Except.ok (newDest, ([] : Grants))

/-! ## OAuth handshake engine and credential lifecycle -/

inductive OAuthVersion where
  | oauth1
  | oauth2
deriving DecidableEq, Repr

/-- The raw token-exchange response, with every field optional as in the
provider's JSON.  Timestamps are absolute seconds. -/
structure RawResp where
  oauth_token : Option String
  oauth_token_secret : Option String
  access_token : Option String
  refresh_token : Option String
  expires_at : Option Int
  scope : Option String
deriving DecidableEq, Repr

/-- What the per-provider `handle_callback` hook extracts. -/
structure HookInfo where
  provider_id : Option String
  display_name : Option String
  profile_url : Option String
deriving DecidableEq, Repr

/-- The `info` dict handed to `_set_external_account`: the normalized
payload plus the hook's fields.  An absent dict key is `none`. -/
structure CallbackInfo where
  key : Option String
  secret : Option String
  refresh_token : Option String
  expires_at : Option Int
  scope : Option String
  provider_id : Option String
  display_name : Option String
  profile_url : Option String
deriving DecidableEq, Repr

/-- Python string truthiness: `if s:` keeps only a non-`None`, non-empty
string. -/
def strTruthy (o : Option String) : Option String :=
  match o with
  | some s => if s.isEmpty then none else some s
  | none => none

/-- `ExternalProvider._default_handle_callback`: picks the
version-specific token fields out of the exchange response, skipping
falsy values (absent fields stay omitted, never defaulted). -/
def default_handle_callback (ver : OAuthVersion) (data : RawResp) : CallbackInfo :=
  match ver with
  | OAuthVersion.oauth1 =>
    { key := strTruthy data.oauth_token
      secret := strTruthy data.oauth_token_secret
      refresh_token := none
      expires_at := none
      scope := none
      provider_id := none
      display_name := none
      profile_url := none }
  | OAuthVersion.oauth2 =>
    { key := strTruthy data.access_token
      secret := none
      refresh_token := strTruthy data.refresh_token
      expires_at :=
        match data.expires_at with
        | some e => if e = 0 then none else some e
        | none => none
      scope := strTruthy data.scope
      provider_id := none
      display_name := none
      profile_url := none }

/-- `info.update(self.handle_callback(response))`: the hook supplies
`provider_id`, `display_name` and `profile_url`. -/
def applyHook (info : CallbackInfo) (h : HookInfo) : CallbackInfo :=
  { info with
    provider_id := h.provider_id
    display_name := h.display_name
    profile_url := h.profile_url }

/-- The `ExternalAccount` table, keyed by `(provider, provider_id)`
(its uniqueness invariant). -/
abbrev AccountStore := List ((String × String) × ExternalAccount)

/-- A freshly `get_or_create`d row: every non-identity column NULL. -/
def blankAccount (provider provider_id : String) : ExternalAccount :=
  { provider := provider
    provider_id := provider_id
    provider_name := none
    oauth_key := none
    oauth_secret := none
    refresh_token := none
    expires_at := none
    date_last_refreshed := none
    display_name := none
    profile_url := none }

inductive CharonError where
  | notRecognized
  | tokenMismatch
  | serviceUnavailable
  | exchangeFailed
  | keyError
deriving DecidableEq, Repr

/-- `ExternalProvider._set_external_account`: find-or-create by
`(provider, provider_id)`, then assign `provider_name`, `oauth_key :=
info['key']` (a `KeyError` when absent), and — unconditionally —
`oauth_secret := info.get('secret')`, `expires_at :=
info.get('expires_at')`, `refresh_token := info.get('refresh_token')`,
`date_last_refreshed := now`, plus the display fields, and save. -/
def set_external_account (store : AccountStore) (short_name pname : String)
    (info : CallbackInfo) (now : Int) : Except CharonError Bool × AccountStore :=
  match info.provider_id with
  | none => (Except.error CharonError.keyError, store)
  | some pid =>
    let existing := dictGet store (short_name, pid)
    let acct0 := existing.getD (blankAccount short_name pid)
    let store1 :=
      match existing with
      | some _ => store
      | none => dictSet store (short_name, pid) acct0
    match info.key with
    | none => (Except.error CharonError.keyError, store1)
    | some k =>
      let acct := { acct0 with
        provider_name := some pname
        oauth_key := some k
        oauth_secret := info.secret
        expires_at := info.expires_at
        refresh_token := info.refresh_token
        date_last_refreshed := some now
        display_name := info.display_name
        profile_url := info.profile_url }
      (Except.ok true, dictSet store1 (short_name, pid) acct)

/-- The session's `oauth_states` dict: provider short name → the cached
pending-handshake dict (`{'state': ...}` or `{'token': ..., 'secret': ...}`). -/
abbrev Session := List (String × List (String × String))

/-- `ExternalProvider.auth_callback`: provider-reported errors return
`False`; a missing pending handshake raises `PermissionsError('OAuth
flow not recognized.')`; a `state`/`oauth_token` not matching the cached
value raises `PermissionsError('Request token does not match')`; then
the code/verifier is exchanged (OAuth2 failures become HTTP 503), the
response is normalized, the hook is applied, and the account is
upserted, after which the pending state is deleted from the session.
The token exchange and the per-provider hook are external
collaborators, passed as oracles. -/
def auth_callback (ver : OAuthVersion) (short_name pname : String)
    (args : List (String × String)) (session : Session)
    (exchange : Except Unit RawResp) (hook : RawResp → HookInfo)
    (now : Int) (store : AccountStore) :
    Except CharonError Bool × Session × AccountStore :=
  if dictContains args "error" then (Except.ok false, session, store)
  else
    match dictGet session short_name with
    | none => (Except.error CharonError.notRecognized, session, store)
    | some cached =>
      let afterExchange : RawResp → Except CharonError Bool × Session × AccountStore :=
        fun resp =>
          let info := applyHook (default_handle_callback ver resp) (hook resp)
          match set_external_account store short_name pname info now with
          | (Except.error e, store1) => (Except.error e, session, store1)
          | (Except.ok b, store1) => (Except.ok b, dictPop session short_name, store1)
      match ver with
      | OAuthVersion.oauth1 =>
        if dictGet cached "token" ≠ dictGet args "oauth_token" then
          (Except.error CharonError.tokenMismatch, session, store)
        else
          match exchange with
          | Except.error _ => (Except.error CharonError.exchangeFailed, session, store)
          | Except.ok resp => afterExchange resp
      | OAuthVersion.oauth2 =>
        if dictGet cached "state" ≠ dictGet args "state" then
          (Except.error CharonError.tokenMismatch, session, store)
        else
          match exchange with
          | Except.error _ => (Except.error CharonError.serviceUnavailable, session, store)
          | Except.ok resp => afterExchange resp

/-- `ExternalProvider._needs_refresh`: with a truthy (nonzero)
`refresh_time` and a set `expires_at`, true when the remaining lifetime
is below the window. -/
def needs_refresh (refresh_time now : Int) (expires_at : Option Int) : Bool :=
  match expires_at with
  | some e => if refresh_time = 0 then false else decide (e - now < refresh_time)
  | none => false

/-- `ExternalProvider.has_expired_credentials`: with a truthy (nonzero)
`expiry_time` and a set `expires_at`, true when the key has been expired
for longer than the window. -/
def has_expired_credentials (expiry_time now : Int) (expires_at : Option Int) : Bool :=
  match expires_at with
  | some e => if expiry_time = 0 then false else decide (now - e > expiry_time)
  | none => false

/-- The provider-level configuration and attached account that
`refresh_oauth_key` consults. -/
structure ExternalProvider where
  account : Option ExternalAccount
  auto_refresh_url : Option String
  client_id : Option String
  client_secret : Option String
  refresh_time : Int
  expiry_time : Int
deriving DecidableEq, Repr

/-- The provider's refresh response, read with the default
`resp_auth_token_key`/`resp_refresh_token_key`/`resp_expiry_fn`
(`now + expires_in`). -/
structure TokenResp where
  access_token : String
  refresh_token : String
  expires_in : Int
deriving DecidableEq, Repr

inductive RefreshResult where
  /-- The function returned `False` without calling the provider, or
  swallowed a rejection because `force` was not set. -/
  | notRefreshed
  /-- The function returned `True`, saving the updated account. -/
  | refreshed (acct : ExternalAccount)
  /-- The provider rejection was re-raised (`force` was set). -/
  | raised
deriving DecidableEq, Repr

/-- `ExternalProvider.refresh_oauth_key`: short-circuits to `False` when
there is no account or no `auto_refresh_url`, when client credentials
are missing, when no refresh is needed and none is forced, or when the
credentials have irrecoverably expired and none is forced; otherwise
calls the provider (an oracle), swallowing a rejection unless `force`
was set, and on success stores the new key, refresh token and expiry. -/
def refresh_oauth_key (p : ExternalProvider) (now : Int) (force : Bool)
    (call : Except Unit TokenResp) : RefreshResult :=
  match p.account with
  | none => RefreshResult.notRefreshed
  | some acct =>
    match strTruthy p.auto_refresh_url with
    | none => RefreshResult.notRefreshed
    | some _ =>
      if (strTruthy p.client_id).isNone || (strTruthy p.client_secret).isNone then
        RefreshResult.notRefreshed
      else if !(force || needs_refresh p.refresh_time now acct.expires_at) then
        RefreshResult.notRefreshed
      else if has_expired_credentials p.expiry_time now acct.expires_at && !force then
        RefreshResult.notRefreshed
      else
        match call with
        | Except.error _ =>
          if !force then RefreshResult.notRefreshed else RefreshResult.raised
        | Except.ok tok =>
          RefreshResult.refreshed { acct with
            oauth_key := some tok.access_token
            refresh_token := some tok.refresh_token
            expires_at := some (now + tok.expires_in)
            date_last_refreshed := some now }

/-! ## Node settings (provider binding) and fork -/

/-- `NodeSettings` (the `BaseOAuthNodeSettings` state): the binding of
one node to at most one external account, its authorizing user's
settings object, and the box folder scope. -/
structure BaseOAuthNodeSettings where
  owner : String
  external_account : Option String
  user_settings : Option BaseOAuthUserSettings
  folder_id : Option String
  folder_name : Option String
  folder_path : Option String
deriving DecidableEq, Repr

/-- `BaseOAuthNodeSettings.has_auth`: a user-settings object whose owner
has an account for this provider, and an external account this node is
still permitted to use (both factors short-circuit on `None`). -/
def BaseOAuthNodeSettings.has_auth (ns : BaseOAuthNodeSettings) : Bool :=
  (match ns.user_settings with
   | some us => us.has_auth
   | none => false) &&
  (match ns.user_settings, ns.external_account with
   | some us, some ea => verify_oauth_access us ns.owner ea []
   | _, _ => false)

/-- `BaseOAuthNodeSettings.complete`: `has_auth`, an account, and a
(still metadata-free) verified grant. -/
def BaseOAuthNodeSettings.complete (ns : BaseOAuthNodeSettings) : Bool :=
  ns.has_auth &&
  ns.external_account.isSome &&
  (match ns.user_settings, ns.external_account with
   | some us, some ea => verify_oauth_access us ns.owner ea []
   | _, _ => false)

/-- `NodeSettings.clear_settings` (box): wipe the folder scope only. -/
def BaseOAuthNodeSettings.clear_settings (ns : BaseOAuthNodeSettings) :
    BaseOAuthNodeSettings :=
  { ns with folder_id := none, folder_name := none, folder_path := none }

/-- `BaseOAuthNodeSettings.set_auth`: grant the node's owner resource
access to the account in the user's settings (which may raise
`PermissionsError`), then point this binding at them. -/
def BaseOAuthNodeSettings.set_auth (ns : BaseOAuthNodeSettings)
    (us : BaseOAuthUserSettings) (ea : String) (metadata : Option Meta) :
    Except Unit (BaseOAuthNodeSettings × BaseOAuthUserSettings) :=
  match grant_oauth_access us ns.owner ea (metadata.getD []) with
  | Except.error e => Except.error e
  | Except.ok us2 =>
    Except.ok ({ ns with user_settings := some us2, external_account := some ea }, us2)

/-- What `after_fork` produces: the cloned node settings, the `metadata`
value it passed to `set_auth` (the "copied access"; `none` on the
cleared path), and the granting user's updated settings if any. -/
structure ForkResult where
  clone : BaseOAuthNodeSettings
  copied : Option Meta
  granteeSettings : Option BaseOAuthUserSettings
deriving DecidableEq, Repr

/-- `BaseOAuthNodeSettings.after_fork`: the base clone drops
`user_settings` and re-owns the fork; when the forking user is the
authorizing owner of a still-authorized binding the grant metadata is
looked up (when `complete`) and re-granted on the fork via `set_auth`;
any other user's fork gets `clear_settings`.  `get_or_add_addon` is the
forking user's settings lookup, an external collaborator. -/
def BaseOAuthNodeSettings.after_fork (ns : BaseOAuthNodeSettings)
    (forkId user : String) (get_or_add_addon : String → BaseOAuthUserSettings) :
    Except Unit ForkResult :=
  let clone := { ns with user_settings := none, owner := forkId }
  if ns.has_auth &&
     (match ns.user_settings with
      | some us => decide (us.owner = user)
      | none => false) then
    let metadata : Option Meta :=
      if ns.complete then
        match ns.user_settings, ns.external_account with
        | some us, some ea =>
          (dictGet us.oauth_grants ns.owner).bind (fun inner => dictGet inner ea)
        | _, _ => none
      else none
    match ns.external_account with
    | none => Except.error ()
    | some ea =>
      match clone.set_auth (get_or_add_addon user) ea metadata with
      | Except.error e => Except.error e
      | Except.ok (clone2, us2) =>
        Except.ok { clone := clone2, copied := metadata, granteeSettings := some us2 }
  else
    Except.ok { clone := clone.clear_settings, copied := none, granteeSettings := none }

/-! ## Theorems -/

/-- The check `verify_oauth_access` runs on each required pair. -/
def metaPairOk (g : Meta) (kv : String × String) : Bool :=
  match dictGet g kv.1 with
  | none => false
  | some v => decide (v = kv.2)

theorem verify_eq (s : BaseOAuthUserSettings) (node acct : String) (mm : Meta) :
    verify_oauth_access s node acct mm =
      match storedMeta s node acct with
      | none => false
      | some g => mm.all (metaPairOk g) := by
  unfold verify_oauth_access storedMeta
  cases dictGet s.oauth_grants node with
  | none => rfl
  | some inner =>
    cases dictGet inner acct with
    | none => rfl
    | some g => rfl

theorem metaPairOk_eq_true (g : Meta) (kv : String × String) :
    metaPairOk g kv = true ↔ dictGet g kv.1 = some kv.2 := by
  unfold metaPairOk
  cases h : dictGet g kv.1 with
  | none => simp
  | some v => simp

/-- `verify` with no required metadata succeeds once the grant entry is
known to exist. -/
theorem verify_nil_of_storedMeta (s : BaseOAuthUserSettings) (node acct : String) (m : Meta)
    (h : storedMeta s node acct = some m) : verify_oauth_access s node acct [] = true := by
  rw [verify_eq, h]
  simp

/-- C1: merge copies every source entry absent from the destination and
merges metadata additively with dest winning for entries present in
both; afterwards the source ledger is empty.  On the very conflict
example the claim gives, the code instead raises `ValueError`: the
conflict branch iterates the metadata dict without `.items()`, so it
tries to unpack the one-character key `"k"` into `(k, v)`.  The
disjoint-resource half of the behaviour does hold. -/
theorem C1_merge_conflict_raises :
    merge [("r1", [("a1", [("k", "dest")])])] [("r1", [("a1", [("k", "source")])])]
      = Except.error () ∧
    merge [("r1", [("a1", [("k", "dest")])])] [("r2", [("a1", [("k", "source")])])]
      = Except.ok
          ([("r1", [("a1", [("k", "dest")])]), ("r2", [("a1", [("k", "source")])])], []) := by
  constructor
  · rfl
  · rfl

/-- C3: with no required metadata, `verify_oauth_access` is true exactly
when a grant entry for the (node, account) pair exists at all; with
required metadata, exactly when the entry exists and every required
key/value pair is present with an equal value in the stored metadata. -/
theorem C3_verify_scoping :
    ∀ (s : BaseOAuthUserSettings) (node acct : String) (m : Meta),
      (verify_oauth_access s node acct [] = true ↔
        ∃ g, storedMeta s node acct = some g) ∧
      (verify_oauth_access s node acct m = true ↔
        ∃ g, storedMeta s node acct = some g ∧
          ∀ kv ∈ m, dictGet g kv.1 = some kv.2) := by
  intro s node acct m
  have key : ∀ (mm : Meta), verify_oauth_access s node acct mm = true ↔
      ∃ g, storedMeta s node acct = some g ∧ ∀ kv ∈ mm, dictGet g kv.1 = some kv.2 := by
    intro mm
    rw [verify_eq]
    cases hsm : storedMeta s node acct with
    | none => simp
    | some g =>
      simp only [List.all_eq_true, metaPairOk_eq_true, Option.some.injEq]
      constructor
      · intro h
        exact ⟨g, rfl, h⟩
      · rintro ⟨g2, rfl, h⟩
        exact h
  constructor
  · rw [key []]
    simp
  · exact key m

/-- C6: `needs_refresh` is true iff the refresh window is nonzero,
`expires_at` is set, and the remaining lifetime is below the window; in
particular it is always false with a zero window and false whenever
`expires_at` is unset. -/
theorem C6_needs_refresh_window :
    (∀ (rt now : Int) (ea : Option Int),
      needs_refresh rt now ea = true ↔ rt ≠ 0 ∧ ∃ e, ea = some e ∧ e - now < rt) ∧
    (∀ (now : Int) (ea : Option Int), needs_refresh 0 now ea = false) ∧
    (∀ (rt now : Int), needs_refresh rt now none = false) := by
  refine ⟨?_, ?_, ?_⟩
  · intro rt now ea
    cases ea with
    | none => simp [needs_refresh]
    | some e =>
      by_cases h : rt = 0
      · simp [needs_refresh, h]
      · simp [needs_refresh, h]
  · intro now ea
    cases ea <;> simp [needs_refresh]
  · intro rt now
    simp [needs_refresh]

/-- C10: `revoke_oauth_access` removes only the account-level entries:
the resource-id key set of the grant mapping is unchanged, and a
resource whose only grant referenced the account stays present, mapped
to an empty metadata mapping. -/
theorem C10_revoke_keeps_resource_keys :
    ∀ (s : BaseOAuthUserSettings) (env : RevokeEnv) (acct : String),
      ((revoke_oauth_access s env acct).2.2.oauth_grants.map Prod.fst
        = s.oauth_grants.map Prod.fst) ∧
      (∀ r m, dictGet s.oauth_grants r = some [(acct, m)] →
        dictGet (revoke_oauth_access s env acct).2.2.oauth_grants r = some []) := by
  intro s env acct
  constructor
  · show (s.oauth_grants.map (fun p => (p.1, dictPop p.2 acct))).map Prod.fst
      = s.oauth_grants.map Prod.fst
    exact keys_map_value s.oauth_grants (fun x => dictPop x acct)
  · intro r m h
    show dictGet (s.oauth_grants.map (fun p => (p.1, dictPop p.2 acct))) r = some []
    rw [show dictGet (s.oauth_grants.map (fun p => (p.1, dictPop p.2 acct))) r
          = (dictGet s.oauth_grants r).map (fun x => dictPop x acct) from
        dictGet_map_value s.oauth_grants (fun x => dictPop x acct) r, h]
    simp [dictPop]

/-- Shared concrete states for witnesses and counterexamples. -/
def usC4 : BaseOAuthUserSettings :=
  { owner := "u1", owner_accounts := ["a1"], provider_accounts := ["a1"],
    oauth_grants := [("n1", [("a1", [])])] }

def envLive : RevokeEnv :=
  { is_deleted := fun _ => false, acct_user_count := 1, auth_user_linked := true }

def envDeleted : RevokeEnv :=
  { is_deleted := fun _ => true, acct_user_count := 2, auth_user_linked := false }

theorem C10_witness :
    (revoke_oauth_access usC4 envLive "a1").2.2.oauth_grants.map Prod.fst
      = usC4.oauth_grants.map Prod.fst ∧
    dictGet (revoke_oauth_access usC4 envLive "a1").2.2.oauth_grants "n1" = some [] :=
  ⟨(C10_revoke_keeps_resource_keys usC4 envLive "a1").1,
   (C10_revoke_keeps_resource_keys usC4 envLive "a1").2 "n1" [] rfl⟩

/-- C4 counterexample: a resource (`"n1"`) has a grant referencing the
account, yet when its node is deleted the revoke call's
deauthorization sweep — the "returned" affected-resource set — misses
it, so the returned set is not "exactly the set of resource ids that
had a grant entry referencing the account". -/
theorem C4_counterexample :
    verify_oauth_access usC4 "n1" "a1" [] = true ∧
    (revoke_oauth_access usC4 envDeleted "a1").1 = [] := by
  constructor
  · rfl
  · rfl

/-- C4 (amended): `revoke_oauth_access` deauthorizes exactly the
resources that had a grant referencing the account *and whose node is
not deleted*, and afterwards `verify` is false for the account on every
resource. -/
theorem C4_revoke_amended :
    ∀ (s : BaseOAuthUserSettings) (env : RevokeEnv) (acct : String),
      (∀ r, r ∈ (revoke_oauth_access s env acct).1 ↔
        ∃ inner, (r, inner) ∈ s.oauth_grants ∧ dictContains inner acct = true ∧
          env.is_deleted r = false) ∧
      ((∀ p ∈ s.oauth_grants, dictNodup p.2) →
        ∀ r, verify_oauth_access (revoke_oauth_access s env acct).2.2 r acct [] = false) := by
  intro s env acct
  constructor
  · intro r
    show r ∈ get_nodes_with_oauth_grants s env.is_deleted acct ↔ _
    unfold get_nodes_with_oauth_grants
    rw [List.mem_filterMap]
    constructor
    · rintro ⟨p, hp, hf⟩
      by_cases hc : (dictContains p.2 acct && !env.is_deleted p.1) = true
      · rw [if_pos hc] at hf
        obtain rfl : p.1 = r := Option.some.inj hf
        rw [Bool.and_eq_true, Bool.not_eq_true'] at hc
        exact ⟨p.2, hp, hc.1, hc.2⟩
      · rw [if_neg hc] at hf
        exact absurd hf (by simp)
    · rintro ⟨inner, hmem, hcon, hdel⟩
      refine ⟨(r, inner), hmem, ?_⟩
      rw [if_pos]
      rw [Bool.and_eq_true, Bool.not_eq_true']
      exact ⟨hcon, hdel⟩
  · intro hwf r
    have hset : (revoke_oauth_access s env acct).2.2.oauth_grants
        = s.oauth_grants.map (fun p => (p.1, dictPop p.2 acct)) := rfl
    rw [verify_eq]
    unfold storedMeta
    rw [hset]
    rw [show dictGet (s.oauth_grants.map (fun p => (p.1, dictPop p.2 acct))) r
          = (dictGet s.oauth_grants r).map (fun x => dictPop x acct) from
        dictGet_map_value s.oauth_grants (fun x => dictPop x acct) r]
    cases hr : dictGet s.oauth_grants r with
    | none => rfl
    | some inner =>
      have hnd : dictNodup inner := hwf (r, inner) (dictGet_mem _ _ _ hr)
      simp [dictGet_dictPop_self inner acct hnd]

theorem C4_witness :
    (∀ p ∈ usC4.oauth_grants, dictNodup p.2) ∧
    "n1" ∈ (revoke_oauth_access usC4 envLive "a1").1 ∧
    verify_oauth_access (revoke_oauth_access usC4 envLive "a1").2.2 "n1" "a1" [] = false :=
  ⟨by decide,
   ((C4_revoke_amended usC4 envLive "a1").1 "n1").mpr
     ⟨[("a1", [])], by decide, by decide, rfl⟩,
   (C4_revoke_amended usC4 envLive "a1").2 (by decide) "n1"⟩

/-- The pre-existing metadata read back through the two "ensure" steps
is exactly the metadata that was stored before them (empty if none). -/
theorem meta0_eq (g : Grants) (node acct : String) :
    (dictGet ((dictGet (ensureAcct (ensureNode g node) node acct) node).getD []) acct).getD []
      = ((dictGet g node).bind (fun inner => dictGet inner acct)).getD [] := by
  cases hn : dictContains g node with
  | true =>
    obtain ⟨inner, hi⟩ := (dictContains_eq_true_iff g node).mp hn
    unfold ensureNode ensureAcct
    simp only [hn, if_true, hi, Option.getD_some, Option.some_bind]
    cases ha : dictContains inner acct with
    | true => simp only [ha, if_true, hi, Option.getD_some]
    | false =>
      have hnone := (dictContains_eq_false_iff inner acct).mp ha
      simp only [ha, Bool.false_eq_true, if_false, dictGet_dictSet_self, Option.getD_some,
        dictGet_dictSet_self, hnone, Option.getD_none]
  | false =>
    have hgnone := (dictContains_eq_false_iff g node).mp hn
    unfold ensureNode ensureAcct
    simp only [hn, Bool.false_eq_true, if_false, dictGet_dictSet_self, Option.getD_some,
      hgnone, Option.none_bind, Option.getD_none]
    have hempty : dictContains ([] : List (String × Meta)) acct = false := rfl
    simp only [hempty, Bool.false_eq_true, if_false, dictGet_dictSet_self, Option.getD_some]

/-- After a successful `grant_oauth_access`, the stored metadata for the
pair is the previous entry (empty if none) updated key-by-key by the
supplied metadata; nothing else about the owner changes. -/
theorem grant_oauth_access_ok (s : BaseOAuthUserSettings) (node acct : String) (m : Meta)
    (h : s.owner_accounts.contains acct = true) :
    ∃ t, grant_oauth_access s node acct m = Except.ok t ∧
      t.owner = s.owner ∧ t.owner_accounts = s.owner_accounts ∧
      t.provider_accounts = s.provider_accounts ∧
      storedMeta t node acct =
        some (m.foldl (fun d kv => dictSet d kv.1 kv.2) ((storedMeta s node acct).getD [])) := by
  have heq : grant_oauth_access s node acct m = Except.ok (grantResult s node acct m) := by
    unfold grant_oauth_access
    rw [h, if_neg (fun hc => Bool.noConfusion hc)]
  refine ⟨grantResult s node acct m, heq, rfl, rfl, rfl, ?_⟩
  unfold grantResult storedMeta
  simp only [dictGet_dictSet_self, Option.some_bind, Option.some.injEq]
  rw [meta0_eq s.oauth_grants node acct]

/-- A ledger that already holds metadata `{z: 9}` for the pair. -/
def usC2 : BaseOAuthUserSettings :=
  { owner := "u1", owner_accounts := ["a1"], provider_accounts := ["a1"],
    oauth_grants := [("r1", [("a1", [("z", "9")])])] }

/-- Two consecutive grants, `none` if either raises. -/
def grantTwice (s : BaseOAuthUserSettings) (node acct : String) (m1 m2 : Meta) :
    Option BaseOAuthUserSettings :=
  match grant_oauth_access s node acct m1 with
  | Except.error _ => none
  | Except.ok s1 =>
    match grant_oauth_access s1 node acct m2 with
    | Except.error _ => none
    | Except.ok s2 => some s2

/-- C2 counterexample: on a ledger that already stores `{z: 9}` for
`(r1, a1)`, granting `{x: 1}` and then `{y: 2}` leaves metadata that
still maps `z` to `9`, although `z` is a key of neither `m1` nor `m2` —
so the result is not "equal to the key-by-key union" of `m1` and `m2`. -/
theorem C2_counterexample :
    ((grantTwice usC2 "r1" "a1" [("x", "1")] [("y", "2")]).bind
        (fun t => storedMeta t "r1" "a1")).map (fun mFinal => dictGet mFinal "z")
      = some (some "9") ∧
    dictGet [("x", "1")] "z" = none ∧ dictGet [("y", "2")] "z" = none := by
  refine ⟨?_, rfl, rfl⟩
  rfl

/-- C2 (amended): two consecutive grants leave the stored metadata for
the pair equal to the previous entry (empty if none) updated key-by-key
by `m1` and then by `m2`: keys of `m2` take their `m2` values, keys of
`m1` absent from `m2` keep their `m1` values, and pre-existing keys
absent from both keep their old values.  On a ledger with no prior entry
this is exactly the key-by-key union, e.g. `{x:1}` then `{y:2}` yields
`{x:1, y:2}`, never `{y:2}`. -/
theorem C2_grant_additive :
    ∀ (s : BaseOAuthUserSettings) (node acct : String) (m1 m2 : Meta),
      s.owner_accounts.contains acct = true →
      dictNodup m1 → dictNodup m2 →
      ∃ s1 s2, grant_oauth_access s node acct m1 = Except.ok s1 ∧
        grant_oauth_access s1 node acct m2 = Except.ok s2 ∧
        ∃ mFinal, storedMeta s2 node acct = some mFinal ∧
          ∀ k, dictGet mFinal k =
            match dictGet m2 k with
            | some v => some v
            | none =>
              match dictGet m1 k with
              | some v => some v
              | none => dictGet ((storedMeta s node acct).getD []) k := by
  intro s node acct m1 m2 h h1 h2
  obtain ⟨s1, hg1, _, hacc1, _, hm1⟩ := grant_oauth_access_ok s node acct m1 h
  have h1b : s1.owner_accounts.contains acct = true := by rw [hacc1]; exact h
  obtain ⟨s2, hg2, _, _, _, hm2⟩ := grant_oauth_access_ok s1 node acct m2 h1b
  refine ⟨s1, s2, hg1, hg2, _, hm2, ?_⟩
  intro k
  rw [dictGet_foldl_dictSet m2 _ h2 k, hm1]
  simp only [Option.getD_some]
  rw [dictGet_foldl_dictSet m1 _ h1 k]
  cases dictGet m2 k with
  | some v => rfl
  | none =>
    cases dictGet m1 k with
    | some v => rfl
    | none => rfl

theorem C2_witness :
    usC2.owner_accounts.contains "a1" = true ∧ dictNodup [("x", "1")] ∧
    dictNodup [("y", "2")] ∧
    ∃ s1 s2, grant_oauth_access usC2 "r1" "a1" [("x", "1")] = Except.ok s1 ∧
      grant_oauth_access s1 "r1" "a1" [("y", "2")] = Except.ok s2 ∧
      ∃ mFinal, storedMeta s2 "r1" "a1" = some mFinal ∧
        ∀ k, dictGet mFinal k =
          match dictGet [("y", "2")] k with
          | some v => some v
          | none =>
            match dictGet [("x", "1")] k with
            | some v => some v
            | none => dictGet ((storedMeta usC2 "r1" "a1").getD []) k :=
  ⟨rfl, by decide, by decide,
   C2_grant_additive usC2 "r1" "a1" [("x", "1")] [("y", "2")] rfl (by decide) (by decide)⟩

/-- C5: on a pending handshake, a callback whose `state` (OAuth2) or
`oauth_token` (OAuth1) differs from the cached pending value fails with
the mismatch error, and neither the account store nor the session is
touched.  (A provider-reported `error` parameter returns `False` even
earlier, also without touching any account.) -/
theorem C5_callback_mismatch :
    ∀ (ver : OAuthVersion) (sn pn : String) (args : List (String × String))
      (session : Session) (exchange : Except Unit RawResp) (hook : RawResp → HookInfo)
      (now : Int) (store : AccountStore) (cached : List (String × String)),
      dictContains args "error" = false →
      dictGet session sn = some cached →
      (match ver with
       | OAuthVersion.oauth1 => dictGet cached "token" ≠ dictGet args "oauth_token"
       | OAuthVersion.oauth2 => dictGet cached "state" ≠ dictGet args "state") →
      auth_callback ver sn pn args session exchange hook now store =
        (Except.error CharonError.tokenMismatch, session, store) := by
  intro ver sn pn args session exchange hook now store cached he hs hm
  unfold auth_callback
  rw [he]
  cases ver with
  | oauth1 =>
    simp only [Bool.false_eq_true, if_false, hs]
    rw [if_pos hm]
  | oauth2 =>
    simp only [Bool.false_eq_true, if_false, hs]
    rw [if_pos hm]

def hookC5 : RawResp → HookInfo :=
  fun _ => { provider_id := some "id1", display_name := none, profile_url := none }

def rawC5 : RawResp :=
  { oauth_token := none, oauth_token_secret := none, access_token := some "T",
    refresh_token := none, expires_at := none, scope := none }

theorem C5_witness :
    dictContains [("state", "bad"), ("code", "c")] "error" = false ∧
    dictGet [("box", [("state", "good")])] "box" = some [("state", "good")] ∧
    auth_callback OAuthVersion.oauth2 "box" "Box" [("state", "bad"), ("code", "c")]
        [("box", [("state", "good")])] (Except.ok rawC5) hookC5 5 []
      = (Except.error CharonError.tokenMismatch, [("box", [("state", "good")])], []) :=
  ⟨rfl, rfl,
   C5_callback_mismatch OAuthVersion.oauth2 "box" "Box" [("state", "bad"), ("code", "c")]
     [("box", [("state", "good")])] (Except.ok rawC5) hookC5 5 [] [("state", "good")]
     rfl rfl (by decide)⟩

/-- C7: `refresh_oauth_key` returns `False` (never raising) when no
refresh capability is configured (no account / no `auto_refresh_url`),
when client credentials are missing, when no refresh is needed and none
is forced, or when the credentials have irrecoverably expired and none
is forced; and a provider rejection is re-raised exactly when `force`
was set, being swallowed into `False` otherwise. -/
theorem C7_refresh_policy :
    (∀ (p : ExternalProvider) (now : Int) (force : Bool) (call : Except Unit TokenResp),
      p.account = none → refresh_oauth_key p now force call = RefreshResult.notRefreshed) ∧
    (∀ (p : ExternalProvider) (now : Int) (force : Bool) (call : Except Unit TokenResp),
      strTruthy p.auto_refresh_url = none →
      refresh_oauth_key p now force call = RefreshResult.notRefreshed) ∧
    (∀ (p : ExternalProvider) (now : Int) (force : Bool) (call : Except Unit TokenResp),
      strTruthy p.client_id = none ∨ strTruthy p.client_secret = none →
      refresh_oauth_key p now force call = RefreshResult.notRefreshed) ∧
    (∀ (p : ExternalProvider) (a : ExternalAccount) (now : Int) (call : Except Unit TokenResp),
      p.account = some a → needs_refresh p.refresh_time now a.expires_at = false →
      refresh_oauth_key p now false call = RefreshResult.notRefreshed) ∧
    (∀ (p : ExternalProvider) (a : ExternalAccount) (now : Int) (call : Except Unit TokenResp),
      p.account = some a → has_expired_credentials p.expiry_time now a.expires_at = true →
      refresh_oauth_key p now false call = RefreshResult.notRefreshed) ∧
    (∀ (p : ExternalProvider) (a : ExternalAccount) (u ci cs : String) (now : Int) (e : Unit),
      p.account = some a → strTruthy p.auto_refresh_url = some u →
      strTruthy p.client_id = some ci → strTruthy p.client_secret = some cs →
      refresh_oauth_key p now true (Except.error e) = RefreshResult.raised ∧
      refresh_oauth_key p now false (Except.error e) = RefreshResult.notRefreshed ∧
      ∀ force, refresh_oauth_key p now force (Except.error e) = RefreshResult.raised ↔
        force = true) := by
  refine ⟨?_, ?_, ?_, ?_, ?_, ?_⟩
  · intro p now force call h
    unfold refresh_oauth_key
    rw [h]
  · intro p now force call h
    unfold refresh_oauth_key
    cases p.account with
    | none => rfl
    | some a => rw [h]
  · intro p now force call h
    have hcred : ((strTruthy p.client_id).isNone || (strTruthy p.client_secret).isNone)
        = true := by
      cases h with
      | inl h => simp [h]
      | inr h => simp [h]
    unfold refresh_oauth_key
    cases p.account with
    | none => rfl
    | some a =>
      cases strTruthy p.auto_refresh_url with
      | none => rfl
      | some u => simp [hcred]
  · intro p a now call hacc hnr
    unfold refresh_oauth_key
    rw [hacc]
    cases strTruthy p.auto_refresh_url with
    | none => rfl
    | some u =>
      cases hcred : ((strTruthy p.client_id).isNone || (strTruthy p.client_secret).isNone) with
      | true => simp [hcred]
      | false => simp [hcred, hnr]
  · intro p a now call hacc hex
    unfold refresh_oauth_key
    rw [hacc]
    cases strTruthy p.auto_refresh_url with
    | none => rfl
    | some u =>
      cases hcred : ((strTruthy p.client_id).isNone || (strTruthy p.client_secret).isNone) with
      | true => simp [hcred]
      | false =>
        cases hnr : needs_refresh p.refresh_time now a.expires_at with
        | false => simp [hcred, hnr]
        | true => simp [hcred, hnr, hex]
  · intro p a u ci cs now e hacc hurl hci hcs
    have hcred : ((strTruthy p.client_id).isNone || (strTruthy p.client_secret).isNone)
        = false := by simp [hci, hcs]
    have hrt : refresh_oauth_key p now true (Except.error e) = RefreshResult.raised := by
      unfold refresh_oauth_key
      rw [hacc, hurl]
      simp [hcred]
    have hrf : refresh_oauth_key p now false (Except.error e)
        = RefreshResult.notRefreshed := by
      unfold refresh_oauth_key
      rw [hacc, hurl]
      cases hnr : needs_refresh p.refresh_time now a.expires_at with
      | false => simp [hcred, hnr]
      | true =>
        cases hex : has_expired_credentials p.expiry_time now a.expires_at with
        | false => simp [hcred, hnr, hex]
        | true => simp [hcred, hnr, hex]
    refine ⟨hrt, hrf, ?_⟩
    intro force
    cases force with
    | true => simp [hrt]
    | false => simp [hrf]

def acctC7 : ExternalAccount :=
  { blankAccount "box" "id1" with
      oauth_key := some "K"
      refresh_token := some "R"
      expires_at := some 105 }

def provC7 : ExternalProvider :=
  { account := some acctC7, auto_refresh_url := some "u", client_id := some "ci",
    client_secret := some "cs", refresh_time := 10, expiry_time := 0 }

theorem C7_witness :
    provC7.account = some acctC7 ∧ strTruthy provC7.auto_refresh_url = some "u" ∧
    strTruthy provC7.client_id = some "ci" ∧ strTruthy provC7.client_secret = some "cs" ∧
    refresh_oauth_key provC7 100 true (Except.error ()) = RefreshResult.raised ∧
    refresh_oauth_key provC7 100 false (Except.error ()) = RefreshResult.notRefreshed ∧
    refresh_oauth_key { provC7 with auto_refresh_url := none } 100 true (Except.error ())
      = RefreshResult.notRefreshed := by
  have h6 := C7_refresh_policy.2.2.2.2.2 provC7 acctC7 "u" "ci" "cs" 100 ()
    rfl rfl rfl rfl
  exact ⟨rfl, rfl, rfl, rfl, h6.1, h6.2.1,
    C7_refresh_policy.2.1 { provC7 with auto_refresh_url := none } 100 true
      (Except.error ()) rfl⟩

/-- The account on file before the handshake is re-run: it has a stored
secret, refresh token and expiry. -/
def acctC8 : ExternalAccount :=
  { blankAccount "box" "id1" with
      oauth_key := some "K"
      oauth_secret := some "S"
      refresh_token := some "R"
      expires_at := some 99 }

/-- A normalized OAuth2 payload whose raw response carried only an
`access_token`: `secret`, `refresh_token` and `expires_at` are omitted. -/
def infoC8 : CallbackInfo :=
  applyHook (default_handle_callback OAuthVersion.oauth2 rawC5)
    { provider_id := some "id1", display_name := none, profile_url := none }

/-- C8 counterexample: upserting a payload that omits `refresh_token`
(and `secret`, `expires_at`) over an existing account does NOT leave the
stored values unchanged — it overwrites them with `None`
(`info.get(...)`), here erasing the stored refresh token `"R"`. -/
theorem C8_counterexample :
    (dictGet [(("box", "id1"), acctC8)] ("box", "id1")).map ExternalAccount.refresh_token
      = some (some "R") ∧
    infoC8.refresh_token = none ∧
    (dictGet (set_external_account [(("box", "id1"), acctC8)] "box" "Box" infoC8 5).2
        ("box", "id1")).map ExternalAccount.refresh_token = some none := by
  refine ⟨rfl, rfl, ?_⟩
  rfl

/-- C8 (amended): for an existing account, the upsert overwrites
`oauth_key` from the payload's `key` and always sets
`date_last_refreshed` to now, and it also overwrites `oauth_secret`,
`refresh_token` and `expires_at` unconditionally with the payload's
values — a field the payload omits is stored as `None`, clobbering any
previously stored value rather than leaving it unchanged. -/
theorem C8_upsert_overwrites :
    ∀ (store : AccountStore) (sn pn : String) (info : CallbackInfo) (now : Int)
      (pid : String) (a0 : ExternalAccount) (k : String),
      dictGet store (sn, pid) = some a0 →
      info.provider_id = some pid →
      info.key = some k →
      dictGet (set_external_account store sn pn info now).2 (sn, pid) =
        some { a0 with
          provider_name := some pn
          oauth_key := some k
          oauth_secret := info.secret
          expires_at := info.expires_at
          refresh_token := info.refresh_token
          date_last_refreshed := some now
          display_name := info.display_name
          profile_url := info.profile_url } := by
  intro store sn pn info now pid a0 k h hpid hk
  unfold set_external_account
  rw [hpid]
  simp only [h, hk, Option.getD_some]
  rw [dictGet_dictSet_self]

theorem C8_witness :
    dictGet [(("box", "id1"), acctC8)] ("box", "id1") = some acctC8 ∧
    infoC8.provider_id = some "id1" ∧ infoC8.key = some "T" ∧
    dictGet (set_external_account [(("box", "id1"), acctC8)] "box" "Box" infoC8 5).2
        ("box", "id1") =
      some { acctC8 with
        provider_name := some "Box"
        oauth_key := some "T"
        oauth_secret := infoC8.secret
        expires_at := infoC8.expires_at
        refresh_token := infoC8.refresh_token
        date_last_refreshed := some 5
        display_name := infoC8.display_name
        profile_url := infoC8.profile_url } :=
  ⟨rfl, rfl, rfl,
   C8_upsert_overwrites [(("box", "id1"), acctC8)] "box" "Box" infoC8 5 "id1" acctC8 "T"
     rfl rfl rfl⟩

/-- C9: for a still-authorized binding whose grant pair exists,
`after_fork` copies the existing grant metadata to the fork exactly when
the forking user is the owner holding the grant; any other user's fork
copies nothing and gets a cleared, unauthenticated binding. -/
theorem C9_fork_authorization :
    ∀ (ns : BaseOAuthNodeSettings) (us : BaseOAuthUserSettings) (ea : String) (m : Meta)
      (forkId user : String) (goa : String → BaseOAuthUserSettings),
      ns.user_settings = some us →
      ns.external_account = some ea →
      us.has_auth = true →
      storedMeta us ns.owner ea = some m →
      us.owner_accounts.contains ea = true →
      goa us.owner = us →
      ((∃ r, ns.after_fork forkId user goa = Except.ok r ∧ r.copied = some m) ↔
        user = us.owner) ∧
      (user ≠ us.owner →
        ∃ r, ns.after_fork forkId user goa = Except.ok r ∧ r.copied = none ∧
          r.clone.user_settings = none ∧ r.clone.folder_id = none ∧
          r.clone.folder_name = none ∧ r.clone.folder_path = none ∧
          r.clone.has_auth = false) := by
  intro ns us ea m forkId user goa hus hea hush hsm hown hgoa
  have hv : verify_oauth_access us ns.owner ea [] = true :=
    verify_nil_of_storedMeta us ns.owner ea m hsm
  have hA : ns.has_auth = true := by
    unfold BaseOAuthNodeSettings.has_auth
    rw [hus, hea]
    simp [hush, hv]
  have hC : ns.complete = true := by
    unfold BaseOAuthNodeSettings.complete
    rw [hA, hus, hea]
    simp [hv]
  have hsm2 : (dictGet us.oauth_grants ns.owner).bind (fun inner => dictGet inner ea)
      = some m := hsm
  by_cases huser : user = us.owner
  · subst huser
    have hrun : ∃ r, ns.after_fork forkId us.owner goa = Except.ok r ∧ r.copied = some m := by
      obtain ⟨t, hgt, _, _, _, _⟩ := grant_oauth_access_ok us forkId ea m hown
      unfold BaseOAuthNodeSettings.after_fork BaseOAuthNodeSettings.set_auth
      simp only [hus, hea, hA, hC, hgoa, hsm2, hgt, decide_eq_true_eq, Bool.true_and,
        if_true, Option.getD_some]
      exact ⟨_, rfl, rfl⟩
    constructor
    · constructor
      · intro _
        rfl
      · intro _
        exact hrun
    · intro hne
      exact absurd rfl hne
  · have hcond : (ns.has_auth &&
        (match ns.user_settings with
         | some us2 => decide (us2.owner = user)
         | none => false)) = false := by
      rw [hus]
      have hud : decide (us.owner = user) = false :=
        decide_eq_false (fun hcontra => huser hcontra.symm)
      simp [hud]
    have hres : ns.after_fork forkId user goa = Except.ok
        { clone := BaseOAuthNodeSettings.clear_settings
            { ns with user_settings := none, owner := forkId },
          copied := none, granteeSettings := none } := by
      unfold BaseOAuthNodeSettings.after_fork
      rw [hcond]
      rfl
    constructor
    · constructor
      · rintro ⟨r, hr, hcop⟩
        rw [hres] at hr
        obtain rfl := (Except.ok.inj hr).symm
        exact absurd hcop (by simp)
      · intro h
        exact absurd h huser
    · intro _
      exact ⟨_, hres, rfl, rfl, rfl, rfl, rfl, rfl⟩

def usC9 : BaseOAuthUserSettings :=
  { owner := "u1", owner_accounts := ["a1"], provider_accounts := ["a1"],
    oauth_grants := [("n1", [("a1", [("folder", "5")])])] }

def nsC9 : BaseOAuthNodeSettings :=
  { owner := "n1", external_account := some "a1", user_settings := some usC9,
    folder_id := some "5", folder_name := some "F", folder_path := some "/F" }

theorem C9_witness :
    nsC9.user_settings = some usC9 ∧
    storedMeta usC9 "n1" "a1" = some [("folder", "5")] ∧
    (∃ r, nsC9.after_fork "f1" "u1" (fun _ => usC9) = Except.ok r ∧
      r.copied = some [("folder", "5")]) ∧
    (∃ r, nsC9.after_fork "f1" "u2" (fun _ => usC9) = Except.ok r ∧ r.copied = none ∧
      r.clone.user_settings = none ∧ r.clone.folder_id = none ∧ r.clone.folder_name = none ∧
      r.clone.folder_path = none ∧ r.clone.has_auth = false) :=
  ⟨rfl, rfl,
   (C9_fork_authorization nsC9 usC9 "a1" [("folder", "5")] "f1" "u1" (fun _ => usC9)
      rfl rfl rfl rfl rfl rfl).1.mpr rfl,
   (C9_fork_authorization nsC9 usC9 "a1" [("folder", "5")] "f1" "u2" (fun _ => usC9)
      rfl rfl rfl rfl rfl rfl).2 (by decide)⟩

end Charon
